import Mathlib

/-!
Verification development for btc_eth_bark_notifier.py.

The script's numeric values (prices, ratios, steps, timestamps) are modelled
as rationals; timestamps are seconds since an arbitrary epoch, matching the
chronological order of the ISO strings stored in SQLite.  The SQLite tables
are modelled as lists: `price_history` as a `List Sample` in insertion order
and `last_alerted` as an association list `Store` with at most one row per
key (INSERT OR REPLACE).  Alert messages are modelled structurally (period
name, hours, kind, value) rather than as the formatted Chinese title/body
strings, which are pure presentation.
-/

/-- Python's int() applied to a real quotient: truncation toward zero. -/
def py_int (q : ℚ) : ℤ := if 0 ≤ q then ⌊q⌋ else ⌈q⌉

/-- Slot of a price: `int(price // step)` (floor division, then int() of an
integral float, hence the floor). Used for BTC and ETH slots in main. -/
def price_slot (price step : ℚ) : ℤ := ⌊price / step⌋

/-- Slot of the ratio: `int(ratio / step)` (true division, then truncation
toward zero by int()). Used for the ratio slot in main. -/
def ratio_slot (r step : ℚ) : ℤ := py_int (r / step)

/-- Checked form of `int(price // step)` with Python's ZeroDivisionError made explicit. -/
def price_slot_checked (price step : ℚ) : Except String ℤ :=
  if step = 0 then .error ("ZeroDivisionError") else .ok (price_slot price step)

/-- Checked form of `int(ratio / step)` with Python's ZeroDivisionError made explicit. -/
def ratio_slot_checked (r step : ℚ) : Except String ℤ :=
  if step = 0 then .error ("ZeroDivisionError") else .ok (ratio_slot r step)

/-- The slot computations main performs at startup (lines 256-260), before
the `while True` polling loop: BTC slot, ETH slot, ratio = btc/eth, ratio
slot.  Any ZeroDivisionError here propagates out of main: fatal at startup. -/
def main_startup (btc eth btcStep ethStep ratioStep : ℚ) :
    Except String (ℤ × ℤ × ℤ) := do
  let bs ← price_slot_checked btc btcStep
  let es ← price_slot_checked eth ethStep
  if eth = 0 then .error ("ZeroDivisionError")
  else do
    let rs ← ratio_slot_checked (btc / eth) ratioStep
    .ok (bs, es, rs)

inductive Direction
  | up
  | down
  deriving DecidableEq

/-- The per-series crossing decision of the polling loop (e.g. lines
280-290 for BTC): no event when the slot is unchanged; on an upward move
the reported threshold is `new_slot * step`; on a downward move it is
`(new_slot + 1) * step`. -/
def detect_crossing (previous_slot current_slot : ℤ) (step : ℚ) :
    Option (Direction × ℚ) :=
  if current_slot = previous_slot then none
  else if current_slot > previous_slot then some (.up, (current_slot : ℚ) * step)
  else some (.down, ((current_slot : ℚ) + 1) * step)

/-- A row of the `price_history` table. -/
structure Sample where
  ts : ℚ
  btc : ℚ
  eth : ℚ
  ratio : ℚ
  deriving DecidableEq

/-- The in-memory `last_alerted` dict: every key is mapped, the six known
keys start at None. -/
abbrev Reg : Type := String → Option ℚ

def initReg : Reg := fun _ => none

def setReg (la : Reg) (key : String) (v : ℚ) : Reg :=
  fun k => if k = key then some v else la k

/-- The six keys of the in-memory dict (constructor of PriceTracker). -/
def knownKeys : List String :=
  ["24h_low", "24h_high", "72h_low", "72h_high", "144h_low", "144h_high"]

/-- The `last_alerted` SQLite table: rows (key, value), at most one per key. -/
abbrev Store : Type := List (String × ℚ)

/-- Model of `_save_last_alerted`: INSERT OR REPLACE of the row for `key`. -/
def saveLastAlerted (s : Store) (key : String) (v : ℚ) : Store :=
  (s.filter (fun row => !(row.1 = key : Bool))) ++ [(key, v)]

/-- SELECT value FROM last_alerted WHERE key = ?. -/
def lookupStore : Store → String → Option ℚ
  | [], _ => none
  | (k, v) :: rest, key => if k = key then some v else lookupStore rest key

/-- The row loop of `_load_last_alerted`: each row whose key is one of the
six known keys overwrites the dict entry. -/
def loadFrom (la : Reg) : Store → Reg
  | [] => la
  | (k, v) :: rest =>
      loadFrom (if k ∈ knownKeys then setReg la k v else la) rest

/-- Model of `_load_last_alerted`, starting from the fresh dict of the constructor. -/
def loadLastAlerted (s : Store) : Reg := loadFrom initReg s

/-- Model of `add_prices`: insert the new row, then DELETE the rows whose timestamp
is older than now minus 145 hours. -/
def add_prices (now btc eth r : ℚ) (hist : List Sample) : List Sample :=
  (hist ++ [(⟨now, btc, eth, r⟩ : Sample)]).filter
    (fun s => (now - 145 * 3600 ≤ s.ts : Bool))

/-- Model of `_get_oldest_timestamp`: SELECT MIN(timestamp) FROM price_history. -/
def getOldestTimestamp (hist : List Sample) : Option ℚ :=
  (hist.map Sample.ts).min?

/-- Model of `_get_period_ratios`: the ratios of the rows with timestamp at least
now minus the period, in table order. -/
def getPeriodRatios (now hours : ℚ) (hist : List Sample) : List ℚ :=
  ((hist.filter (fun s => (now - hours * 3600 ≤ s.ts : Bool))).map Sample.ratio)

inductive ExtKind
  | low
  | high
  deriving DecidableEq

/-- One tracked candidate `(period_name, hours, current_ratio, key)` as
stored in `longest_low` / `longest_high`. -/
structure Found where
  period : String
  hours : ℚ
  ratio : ℚ
  key : String
  deriving DecidableEq

/-- A structural rendering of one alert `(title, body)` pair: the period
name and hours that appear in the message, the kind (新低/新高) and the
`ratio_val` the body displays. -/
structure Alert where
  period : String
  hours : ℚ
  kind : ExtKind
  value : ℚ
  deriving DecidableEq

def isLowAlert (a : Alert) : Bool :=
  match a.kind with
  | .low => true
  | .high => false

def isHighAlert (a : Alert) : Bool :=
  match a.kind with
  | .low => false
  | .high => true

/-- The key the code uses for an alert of this period and kind. -/
def alertKey (a : Alert) : String :=
  match a.kind with
  | .low => a.period ++ "_low"
  | .high => a.period ++ "_high"

/-- The low branch of the loop body: only if no longer-period low was
found yet, and the current ratio is at most the window minimum, and the
registry entry for the period's low key differs from the current ratio,
record the candidate. -/
def updateLow (cur : ℚ) (la : Reg) (pname : String) (phours min_ratio : ℚ)
    (o : Option Found) : Option Found :=
  match o with
  | some f => some f
  | none =>
      if cur ≤ min_ratio ∧ la (pname ++ "_low") ≠ some cur then
        some ⟨pname, phours, cur, pname ++ "_low"⟩
      else none

/-- The high branch of the loop body, symmetric to `updateLow` with the
comparison current_ratio >= max_ratio. -/
def updateHigh (cur : ℚ) (la : Reg) (pname : String) (phours max_ratio : ℚ)
    (o : Option Found) : Option Found :=
  match o with
  | some f => some f
  | none =>
      if max_ratio ≤ cur ∧ la (pname ++ "_high") ≠ some cur then
        some ⟨pname, phours, cur, pname ++ "_high"⟩
      else none

/-- One iteration of the `for period_name, hours in periods` loop of
`check_extremes`: skip the period when the data span is shorter than its
hours; skip it when its window is empty (min? and max? are `some` exactly
when `period_ratios` is nonempty, matching the `if not period_ratios`
guard); otherwise run the low and high branches. -/
def stepPeriod (now current_ratio data_span : ℚ) (hist : List Sample)
    (la : Reg) (acc : Option Found × Option Found) (p : String × ℚ) :
    Option Found × Option Found :=
  if data_span < p.2 then acc
  else
    match (getPeriodRatios now p.2 hist).min?, (getPeriodRatios now p.2 hist).max? with
    | some min_ratio, some max_ratio =>
        (updateLow current_ratio la p.1 p.2 min_ratio acc.1,
         updateHigh current_ratio la p.1 p.2 max_ratio acc.2)
    | _, _ => acc

/-- The periods list of `check_extremes`, longest first. -/
def periodsList : List (String × ℚ) := [("144h", 144), ("72h", 72), ("24h", 24)]

/-- The whole period loop of `check_extremes`. -/
def findExtremes (now current_ratio data_span : ℚ) (hist : List Sample)
    (la : Reg) : Option Found × Option Found :=
  periodsList.foldl (stepPeriod now current_ratio data_span hist la)
    (none, none)

/-- Alert assembly of `check_extremes` (lines 218-239): the low alert is
appended first and its registry entry saved, then the high alert. -/
def assemble (la : Reg) (store : Store) (found : Option Found × Option Found) :
    List Alert × Reg × Store :=
  let lowPart : List Alert × Reg × Store :=
    match found.1 with
    | none => ([], la, store)
    | some f =>
        ([⟨f.period, f.hours, .low, f.ratio⟩],
         setReg la f.key f.ratio,
         saveLastAlerted store f.key f.ratio)
  match found.2 with
  | none => lowPart
  | some f =>
      (lowPart.1 ++ [⟨f.period, f.hours, .high, f.ratio⟩],
       setReg lowPart.2.1 f.key f.ratio,
       saveLastAlerted lowPart.2.2 f.key f.ratio)

/-- Model of `check_extremes`: returns the alert list and the updated
in-memory registry and durable store. With no oldest timestamp it returns
immediately; otherwise it runs the period loop on the data span in hours
and assembles the alerts. -/
def check_extremes (now current_ratio : ℚ) (hist : List Sample) (la : Reg)
    (store : Store) : List Alert × Reg × Store :=
  match getOldestTimestamp hist with
  | none => ([], la, store)
  | some oldest =>
      assemble la store
        (findExtremes now current_ratio ((now - oldest) / 3600) hist la)

/-- Invariant of the longest_low candidate along the period loop: whenever
it is filled, it carries the current ratio, its registry entry differed
from the current ratio, its period was not skipped for insufficient data,
and its key is the period's low key. -/
def LowInv (cur span : ℚ) (la : Reg) (o : Option Found) : Prop :=
  ∀ f, o = some f →
    f.ratio = cur ∧ la f.key ≠ some cur ∧ ¬(span < f.hours) ∧
    f.key = f.period ++ "_low"

/-- Invariant of the longest_high candidate along the period loop. -/
def HighInv (cur span : ℚ) (la : Reg) (o : Option Found) : Prop :=
  ∀ f, o = some f →
    f.ratio = cur ∧ la f.key ≠ some cur ∧ ¬(span < f.hours) ∧
    f.key = f.period ++ "_high"

/-- Concrete history fixture: samples at hours 0, 2, 83+1/3, 138+8/9 with
ratios 9, 5, 6, 7 (timestamps in seconds). -/
def histA : List Sample :=
  [⟨0, 1, 1, 9⟩, ⟨7200, 1, 1, 5⟩, ⟨300000, 1, 1, 6⟩, ⟨500000, 1, 1, 7⟩]

/-- Concrete history fixture: oldest sample at time 0 with ratio 5, one
sample at hour 150 with ratio 4. -/
def histB : List Sample := [⟨0, 1, 1, 5⟩, ⟨540000, 1, 1, 4⟩]

/-- Registry fixture: 144h_low already alerted at ratio 3. -/
def regLow144 : Reg := setReg initReg ("144h_low") 3

/-- Registry fixture: 144h_high already alerted at ratio 10. -/
def regHigh144 : Reg := setReg initReg ("144h_high") 10

/-- Concrete history fixture: 30 hours of data, oldest sample at time 0
with ratio 4, one sample at hour 10 with ratio 5. -/
def histC : List Sample := [⟨0, 1, 1, 4⟩, ⟨36000, 1, 1, 5⟩]

/-- Concrete history fixture for retention: samples at 10000 s and
200000 s. -/
def histD : List Sample := [⟨10000, 1, 1, 2⟩, ⟨200000, 1, 1, 3⟩]

/-- C10: with an empty price history there is no oldest timestamp, and
check_extremes returns the empty alert list, leaving the registry and the
durable store unchanged. -/
theorem C10_empty_history (now cur : ℚ) (la : Reg) (store : Store) :
    check_extremes now cur [] la store = ([], la, store) := rfl

/-- C3: crossing detection of the polling loop. Equal slots produce no
event; an upward move produces a single up event at threshold
current_slot * step; a downward move produces a single down event at
threshold (current_slot + 1) * step. -/
theorem C3_detect_crossing (previous_slot current_slot : ℤ) (step : ℚ)
    (_hstep : 0 < step) :
    (current_slot = previous_slot →
      detect_crossing previous_slot current_slot step = none) ∧
    (previous_slot < current_slot →
      detect_crossing previous_slot current_slot step =
        some (Direction.up, (current_slot : ℚ) * step)) ∧
    (current_slot < previous_slot →
      detect_crossing previous_slot current_slot step =
        some (Direction.down, ((current_slot : ℚ) + 1) * step)) := by
  refine ⟨fun h => ?_, fun h => ?_, fun h => ?_⟩
  · simp [detect_crossing, h]
  · simp [detect_crossing, ne_of_gt h, h]
  · simp [detect_crossing, ne_of_lt h, not_lt_of_gt h]

/-- Witness for C3 at the spec's test vector: previous slot 10, current
slot 12, step 100 gives an up event at threshold 1200. -/
theorem C3_detect_crossing_witness :
    detect_crossing 10 12 100 = some (Direction.up, 1200) := by
  have h := (C3_detect_crossing 10 12 100 (by norm_num)).2.1 (by norm_num)
  rw [h]
  norm_num

/-- C4 counterexample: the claim quantifies over every value, but the
ratio slot is computed with int(ratio / step), which truncates toward
zero; at value -1 and step 2 the computed slot is 0 and the lower bound
of the invariant fails. -/
theorem C4_counterexample :
    ¬(((ratio_slot (-1) 2 : ℚ) * 2 ≤ -1) ∧
      ((-1 : ℚ) < ((ratio_slot (-1) 2 : ℚ) + 1) * 2)) := by
  have h0 : ratio_slot (-1) 2 = 0 := by norm_num [ratio_slot, py_int]
  intro h
  have h1 := h.1
  rw [h0] at h1
  norm_num at h1

/-- C4 amended: for every value and every step > 0 the floor-division
slot int(value // step) satisfies slot * step <= value < (slot+1) * step;
the truncating ratio slot int(value / step) satisfies the same invariant
for every value >= 0. -/
theorem C4_slot_invariant (v s : ℚ) (hs : 0 < s) :
    (((price_slot v s : ℚ) * s ≤ v) ∧ (v < ((price_slot v s : ℚ) + 1) * s)) ∧
    (0 ≤ v →
      (((ratio_slot v s : ℚ) * s ≤ v) ∧ (v < ((ratio_slot v s : ℚ) + 1) * s))) := by
  have hfloor : ((⌊v / s⌋ : ℚ) * s ≤ v) ∧ (v < ((⌊v / s⌋ : ℚ) + 1) * s) := by
    constructor
    · have h1 : ((⌊v / s⌋ : ℚ)) ≤ v / s := Int.floor_le (v / s)
      have h2 := mul_le_mul_of_nonneg_right h1 (le_of_lt hs)
      rwa [div_mul_cancel₀ v (ne_of_gt hs)] at h2
    · have h1 : v / s < (⌊v / s⌋ : ℚ) + 1 := Int.lt_floor_add_one (v / s)
      have h2 := mul_lt_mul_of_pos_right h1 hs
      rwa [div_mul_cancel₀ v (ne_of_gt hs)] at h2
  refine ⟨hfloor, fun hv => ?_⟩
  have hq : (0 : ℚ) ≤ v / s := div_nonneg hv (le_of_lt hs)
  have : ratio_slot v s = ⌊v / s⌋ := by
    simp [ratio_slot, py_int, hq]
  rw [this]
  exact hfloor

/-- Witness for C4 amended at value 7, step 2: slot 3, and 6 <= 7 < 8. -/
theorem C4_slot_invariant_witness :
    (((price_slot 7 2 : ℚ) * 2 ≤ 7) ∧ ((7 : ℚ) < ((price_slot 7 2 : ℚ) + 1) * 2)) ∧
    ((0 : ℚ) ≤ 7 →
      (((ratio_slot 7 2 : ℚ) * 2 ≤ 7) ∧ ((7 : ℚ) < ((ratio_slot 7 2 : ℚ) + 1) * 2))) :=
  C4_slot_invariant 7 2 (by norm_num)

/-- C7 counterexample: with the negative step -1 none of the slot
computations fails, and main's startup succeeds; the code performs no
positivity validation of the step configuration, so "fails when
step <= 0" is false. -/
theorem C7_counterexample :
    (price_slot_checked 5 (-1)).isOk = true ∧
    (ratio_slot_checked 5 (-1)).isOk = true ∧
    (main_startup 5 2 (-1) (-1) (-1)).isOk = true := by
  refine ⟨?_, ?_, ?_⟩ <;>
    simp [price_slot_checked, ratio_slot_checked, main_startup, Except.isOk,
      Except.toBool, bind, Except.bind]

/-- C7 amended: the slot computations fail only for step = 0, with a
ZeroDivisionError rather than a dedicated configuration error; since
main computes all three slots before entering the polling loop, a zero
step (or a zero ETH price) makes startup fail, while a negative step is
accepted silently. -/
theorem C7_zero_step_only (btc eth s1 s2 s3 : ℚ) :
    ((price_slot_checked btc s1).isOk = false ↔ s1 = 0) ∧
    ((ratio_slot_checked btc s1).isOk = false ↔ s1 = 0) ∧
    ((main_startup btc eth s1 s2 s3).isOk = false ↔
      (s1 = 0 ∨ s2 = 0 ∨ eth = 0 ∨ s3 = 0)) := by
  refine ⟨?_, ?_, ?_⟩
  · by_cases h : s1 = 0 <;>
      simp [price_slot_checked, h, Except.isOk, Except.toBool]
  · by_cases h : s1 = 0 <;>
      simp [ratio_slot_checked, h, Except.isOk, Except.toBool]
  · by_cases h1 : s1 = 0 <;> by_cases h2 : s2 = 0 <;> by_cases he : eth = 0 <;>
      by_cases h3 : s3 = 0 <;>
      simp [main_startup, price_slot_checked, ratio_slot_checked, h1, h2, he, h3,
        Except.isOk, Except.toBool, bind, Except.bind]


lemma updateLow_inv (cur span : ℚ) (la : Reg) (pname : String)
    (phours m : ℚ) (o : Option Found) (hp : ¬(span < phours))
    (h : LowInv cur span la o) :
    LowInv cur span la (updateLow cur la pname phours m o) := by
  cases o with
  | some f => exact h
  | none =>
      intro g hg
      simp only [updateLow] at hg
      split at hg
      · rename_i hcond
        cases hg
        exact ⟨rfl, hcond.2, hp, rfl⟩
      · exact absurd hg (by simp)

lemma updateHigh_inv (cur span : ℚ) (la : Reg) (pname : String)
    (phours m : ℚ) (o : Option Found) (hp : ¬(span < phours))
    (h : HighInv cur span la o) :
    HighInv cur span la (updateHigh cur la pname phours m o) := by
  cases o with
  | some f => exact h
  | none =>
      intro g hg
      simp only [updateHigh] at hg
      split at hg
      · rename_i hcond
        cases hg
        exact ⟨rfl, hcond.2, hp, rfl⟩
      · exact absurd hg (by simp)

lemma stepPeriod_inv (now cur span : ℚ) (hist : List Sample) (la : Reg)
    (acc : Option Found × Option Found) (p : String × ℚ)
    (h1 : LowInv cur span la acc.1) (h2 : HighInv cur span la acc.2) :
    LowInv cur span la (stepPeriod now cur span hist la acc p).1 ∧
    HighInv cur span la (stepPeriod now cur span hist la acc p).2 := by
  unfold stepPeriod
  split
  · exact ⟨h1, h2⟩
  · rename_i hs
    cases hmin : (getPeriodRatios now p.2 hist).min? with
    | none =>
        cases hmax : (getPeriodRatios now p.2 hist).max? <;> exact ⟨h1, h2⟩
    | some m =>
        cases hmax : (getPeriodRatios now p.2 hist).max? with
        | none => exact ⟨h1, h2⟩
        | some M =>
            exact ⟨updateLow_inv cur span la p.1 p.2 m acc.1 hs h1,
              updateHigh_inv cur span la p.1 p.2 M acc.2 hs h2⟩

lemma stepPeriod_skip (now cur span : ℚ) (hist : List Sample) (la : Reg)
    (acc : Option Found × Option Found) (p : String × ℚ)
    (hs : span < p.2) :
    stepPeriod now cur span hist la acc p = acc := by
  unfold stepPeriod
  rw [if_pos hs]

lemma stepPeriod_fst_some (now cur span : ℚ) (hist : List Sample) (la : Reg)
    (acc : Option Found × Option Found) (p : String × ℚ) (f : Found)
    (hacc : acc.1 = some f) :
    (stepPeriod now cur span hist la acc p).1 = some f := by
  unfold stepPeriod
  split
  · exact hacc
  · cases hmin : (getPeriodRatios now p.2 hist).min? with
    | none => cases hmax : (getPeriodRatios now p.2 hist).max? <;> exact hacc
    | some m =>
        cases hmax : (getPeriodRatios now p.2 hist).max? with
        | none => exact hacc
        | some M => rw [hacc]; rfl

lemma findExtremes_eq (now cur span : ℚ) (hist : List Sample) (la : Reg) :
    findExtremes now cur span hist la =
      stepPeriod now cur span hist la
        (stepPeriod now cur span hist la
          (stepPeriod now cur span hist la (none, none) ("144h", 144))
          ("72h", 72))
        ("24h", 24) := rfl

lemma findExtremes_inv (now cur span : ℚ) (hist : List Sample) (la : Reg) :
    LowInv cur span la (findExtremes now cur span hist la).1 ∧
    HighInv cur span la (findExtremes now cur span hist la).2 := by
  rw [findExtremes_eq]
  have h0 : LowInv cur span la (none : Option Found) ∧
      HighInv cur span la (none : Option Found) := by
    constructor <;> intro f hf <;> exact absurd hf (by simp)
  have h1 := stepPeriod_inv now cur span hist la (none, none) ("144h", 144)
    h0.1 h0.2
  have h2 := stepPeriod_inv now cur span hist la _ ("72h", 72) h1.1 h1.2
  exact stepPeriod_inv now cur span hist la _ ("24h", 24) h2.1 h2.2

lemma check_extremes_eq_some (now cur oldest : ℚ) (hist : List Sample)
    (la : Reg) (store : Store)
    (hold : getOldestTimestamp hist = some oldest) :
    check_extremes now cur hist la store =
      assemble la store
        (findExtremes now cur ((now - oldest) / 3600) hist la) := by
  unfold check_extremes
  rw [hold]

lemma assemble_mem_alerts (la : Reg) (store : Store)
    (found : Option Found × Option Found) (a : Alert)
    (ha : a ∈ (assemble la store found).1) :
    (∃ f, found.1 = some f ∧ a = ⟨f.period, f.hours, ExtKind.low, f.ratio⟩) ∨
    (∃ f, found.2 = some f ∧ a = ⟨f.period, f.hours, ExtKind.high, f.ratio⟩) := by
  obtain ⟨fl, fh⟩ := found
  cases fl with
  | none =>
      cases fh with
      | none => simp [assemble] at ha
      | some g =>
          simp [assemble] at ha
          exact Or.inr ⟨g, rfl, ha⟩
  | some f =>
      cases fh with
      | none =>
          simp [assemble] at ha
          exact Or.inl ⟨f, rfl, ha⟩
      | some g =>
          simp [assemble] at ha
          rcases ha with h | h
          · exact Or.inl ⟨f, rfl, h⟩
          · exact Or.inr ⟨g, rfl, h⟩

/-- C5: check_extremes skips every lookback period whose hours exceed the
age of the oldest retained sample: every emitted alert's period hours are
at most the data span, and when the data span is under 24 hours (for
instance only 10 hours of history) no 24h, 72h or 144h alert is produced
at all and the registry and store are untouched. -/
theorem C5_insufficient_data (now cur oldest : ℚ) (hist : List Sample)
    (la : Reg) (store : Store)
    (hold : getOldestTimestamp hist = some oldest) :
    (∀ a ∈ (check_extremes now cur hist la store).1,
      ¬((now - oldest) / 3600 < a.hours)) ∧
    ((now - oldest) / 3600 < 24 →
      check_extremes now cur hist la store = ([], la, store)) := by
  have hck := check_extremes_eq_some now cur oldest hist la store hold
  constructor
  · intro a ha
    rw [hck] at ha
    have hinv := findExtremes_inv now cur ((now - oldest) / 3600) hist la
    rcases assemble_mem_alerts la store _ a ha with ⟨f, hf, rfl⟩ | ⟨f, hf, rfl⟩
    · exact (hinv.1 f hf).2.2.1
    · exact (hinv.2 f hf).2.2.1
  · intro hspan
    rw [hck, findExtremes_eq]
    rw [stepPeriod_skip _ _ _ _ _ _ _ (by norm_num at hspan ⊢; linarith)]
    rw [stepPeriod_skip _ _ _ _ _ _ _ (by norm_num at hspan ⊢; linarith)]
    rw [stepPeriod_skip _ _ _ _ _ _ _ (by norm_num at hspan ⊢; linarith)]
    rfl

/-- Witness for C5: ten hours of history (oldest sample at time zero, now
36000 seconds), any current ratio: no alerts, registry and store
unchanged. -/
theorem C5_insufficient_data_witness :
    check_extremes 36000 5 [(⟨0, 1, 1, 2⟩ : Sample)] initReg [] =
      ([], initReg, []) :=
  (C5_insufficient_data 36000 5 0 [(⟨0, 1, 1, 2⟩ : Sample)] initReg []
    (by simp [getOldestTimestamp, List.min?])).2 (by norm_num)

lemma lookupStore_append_of_ne (s₁ s₂ : Store) (k : String)
    (h : ∀ row ∈ s₁, row.1 ≠ k) :
    lookupStore (s₁ ++ s₂) k = lookupStore s₂ k := by
  induction s₁ with
  | nil => rfl
  | cons row t ih =>
      obtain ⟨k₀, v₀⟩ := row
      have hk₀ : k₀ ≠ k := h (k₀, v₀) (by simp)
      simp only [List.cons_append, lookupStore, if_neg hk₀]
      exact ih (fun r hr => h r (by simp [hr]))

lemma lookupStore_save_self (s : Store) (k : String) (v : ℚ) :
    lookupStore (saveLastAlerted s k v) k = some v := by
  unfold saveLastAlerted
  rw [lookupStore_append_of_ne]
  · simp [lookupStore]
  · intro row hrow
    have hp := List.of_mem_filter hrow
    simpa using hp

lemma lookupStore_save_ne (s : Store) (k k' : String) (v : ℚ) (h : k' ≠ k) :
    lookupStore (saveLastAlerted s k v) k' = lookupStore s k' := by
  unfold saveLastAlerted
  induction s with
  | nil =>
      have hk : ¬(k = k') := fun hh => h (Eq.symm hh)
      simp [lookupStore, hk]
  | cons row t ih =>
      obtain ⟨k₀, v₀⟩ := row
      by_cases h₀ : k₀ = k
      · have hcond : ((fun row => !(row.1 = k : Bool)) ((k₀, v₀) : String × ℚ)) = false := by
          simp [h₀]
        have hk₀ : k₀ ≠ k' := by rw [h₀]; exact fun hh => h hh.symm
        simp only [List.filter_cons, hcond, Bool.false_eq_true, if_false,
          lookupStore, if_neg hk₀]
        exact ih
      · have hcond : ((fun row => !(row.1 = k : Bool)) ((k₀, v₀) : String × ℚ)) = true := by
          simp [h₀]
        simp only [List.filter_cons, hcond, if_true, List.cons_append,
          lookupStore]
        by_cases hk₀ : k₀ = k'
        · rw [if_pos hk₀, if_pos hk₀]
        · rw [if_neg hk₀, if_neg hk₀]
          exact ih

/-- C2: de-duplication. Every alert emitted by check_extremes is for a
(period, kind) whose registry entry differed from the current ratio
(exact comparison; a None entry always differs); the alert carries the
current ratio; and on emission the registry entry for that key is set to
the current ratio and the corresponding row is persisted in the durable
store before returning. -/
theorem C2_dedup (now cur : ℚ) (hist : List Sample) (la : Reg)
    (store : Store) :
    ∀ a ∈ (check_extremes now cur hist la store).1,
      la (alertKey a) ≠ some cur ∧
      a.value = cur ∧
      (check_extremes now cur hist la store).2.1 (alertKey a) = some cur ∧
      lookupStore (check_extremes now cur hist la store).2.2 (alertKey a) =
        some cur := by
  intro a ha
  cases hold : getOldestTimestamp hist with
  | none =>
      have hck : check_extremes now cur hist la store = ([], la, store) := by
        unfold check_extremes
        rw [hold]
      rw [hck] at ha
      simp at ha
  | some oldest =>
      have hck := check_extremes_eq_some now cur oldest hist la store hold
      have hinv := findExtremes_inv now cur ((now - oldest) / 3600) hist la
      rcases hfe : findExtremes now cur ((now - oldest) / 3600) hist la
        with ⟨fl, fh⟩
      rw [hfe] at hck hinv
      rw [hck] at ha ⊢
      obtain ⟨hL, hH⟩ := hinv
      cases fl with
      | none =>
          cases fh with
          | none => simp [assemble] at ha
          | some g =>
              obtain ⟨hgr, hgd, hgs, hgk⟩ := hH g rfl
              simp [assemble] at ha
              subst ha
              refine ⟨?_, hgr, ?_, ?_⟩
              · simpa [alertKey, ← hgk] using hgd
              · simp [assemble, alertKey, ← hgk, setReg, hgr]
              · simp [assemble, alertKey, ← hgk, hgr, lookupStore_save_self]
      | some f =>
          obtain ⟨hfr, hfd, hfs, hfk⟩ := hL f rfl
          cases fh with
          | none =>
              simp [assemble] at ha
              subst ha
              refine ⟨?_, hfr, ?_, ?_⟩
              · simpa [alertKey, ← hfk] using hfd
              · simp [assemble, alertKey, ← hfk, setReg, hfr]
              · simp [assemble, alertKey, ← hfk, hfr, lookupStore_save_self]
          | some g =>
              obtain ⟨hgr, hgd, hgs, hgk⟩ := hH g rfl
              simp [assemble] at ha
              rcases ha with h | h
              · subst h
                refine ⟨?_, hfr, ?_, ?_⟩
                · simpa [alertKey, ← hfk] using hfd
                · by_cases hkk : f.key = g.key <;>
                    simp [assemble, alertKey, ← hfk, setReg, hkk, hfr, hgr]
                · by_cases hkk : f.key = g.key
                  · simp only [assemble, alertKey, ← hfk, hkk,
                      lookupStore_save_self, hgr]
                  · simp only [assemble, alertKey, ← hfk]
                    rw [lookupStore_save_ne _ _ _ _ hkk,
                      lookupStore_save_self, hfr]
              · subst h
                refine ⟨?_, hgr, ?_, ?_⟩
                · simpa [alertKey, ← hgk] using hgd
                · simp [assemble, alertKey, ← hgk, setReg, hgr]
                · simp [assemble, alertKey, ← hgk, hgr, lookupStore_save_self]

lemma min?_exists_of_ne_nil (l : List ℚ) (h : l ≠ []) :
    ∃ m, l.min? = some m := by
  cases hm : l.min? with
  | none => exact absurd (List.min?_eq_none_iff.mp hm) h
  | some m => exact ⟨m, rfl⟩

lemma max?_exists_of_ne_nil (l : List ℚ) (h : l ≠ []) :
    ∃ m, l.max? = some m := by
  cases hm : l.max? with
  | none => exact absurd (List.max?_eq_none_iff.mp hm) h
  | some m => exact ⟨m, rfl⟩

/-- C1: longest-period preference for lows. With enough history for all
three windows, a current ratio at or below the minimum of each window,
and no de-duplication suppression on any low key, check_extremes emits
exactly one low alert, attributed to the 144h period; the high track is
independent and unconstrained. -/
theorem C1_longest_period (now cur oldest : ℚ) (hist : List Sample)
    (la : Reg) (store : Store)
    (hold : getOldestTimestamp hist = some oldest)
    (hspan : ¬((now - oldest) / 3600 < 144))
    (h144 : getPeriodRatios now 144 hist ≠ [])
    (_h72 : getPeriodRatios now 72 hist ≠ [])
    (_h24 : getPeriodRatios now 24 hist ≠ [])
    (hm144 : ∀ r ∈ getPeriodRatios now 144 hist, cur ≤ r)
    (_hm72 : ∀ r ∈ getPeriodRatios now 72 hist, cur ≤ r)
    (_hm24 : ∀ r ∈ getPeriodRatios now 24 hist, cur ≤ r)
    (hd144 : la ("144h_low") ≠ some cur)
    (_hd72 : la ("72h_low") ≠ some cur)
    (_hd24 : la ("24h_low") ≠ some cur) :
    (check_extremes now cur hist la store).1.filter isLowAlert =
      [⟨"144h", 144, ExtKind.low, cur⟩] := by
  have hck := check_extremes_eq_some now cur oldest hist la store hold
  have hfl : (findExtremes now cur ((now - oldest) / 3600) hist la).1 =
      some ⟨"144h", 144, cur, "144h_low"⟩ := by
    rw [findExtremes_eq]
    apply stepPeriod_fst_some
    apply stepPeriod_fst_some
    obtain ⟨m, hm⟩ := min?_exists_of_ne_nil _ h144
    obtain ⟨M, hM⟩ := max?_exists_of_ne_nil _ h144
    have hmem : m ∈ getPeriodRatios now 144 hist :=
      List.min?_mem (fun a b => min_choice a b) hm
    have hcur : cur ≤ m := hm144 m hmem
    show (stepPeriod now cur ((now - oldest) / 3600) hist la
      (none, none) ("144h", 144)).1 = _
    unfold stepPeriod
    rw [if_neg hspan]
    rw [hm, hM]
    have hkey : ("144h" : String) ++ "_low" = "144h_low" := rfl
    simp [updateLow, hkey, hcur, hd144]
  rcases hfe : findExtremes now cur ((now - oldest) / 3600) hist la
    with ⟨fl, fh⟩
  rw [hfe] at hck hfl
  simp only at hfl
  subst hfl
  rw [hck]
  cases fh with
  | none => simp [assemble, isLowAlert]
  | some g =>
      have hH := (findExtremes_inv now cur ((now - oldest) / 3600) hist la).2
      rw [hfe] at hH
      obtain ⟨hgr, hgd, hgs, hgk⟩ := hH g rfl
      simp [assemble, isLowAlert, List.filter_cons]

lemma loadFrom_append (la : Reg) (l₁ l₂ : Store) :
    loadFrom la (l₁ ++ l₂) = loadFrom (loadFrom la l₁) l₂ := by
  induction l₁ generalizing la with
  | nil => rfl
  | cons row t ih =>
      obtain ⟨k, v⟩ := row
      simp only [List.cons_append, loadFrom]
      exact ih _

lemma loadLastAlerted_save (s : Store) (k : String) (v : ℚ)
    (hk : k ∈ knownKeys) :
    loadLastAlerted (saveLastAlerted s k v) k = some v := by
  unfold loadLastAlerted saveLastAlerted
  rw [loadFrom_append]
  simp [loadFrom, hk, setReg]

/-- C6: restart durability. After a 24h_low value is persisted by
_save_last_alerted, a new tracker built over the same store loads that
value into its registry, and re-ingesting the identical extreme value
(still at or below the 24h window minimum, with the window containing
some strictly larger sample and the data span between 24 and 72 hours)
produces no alert at all: the registry and store are left unchanged. -/
theorem C6_restart_durability (now cur oldest : ℚ) (hist : List Sample)
    (store0 : Store)
    (hold : getOldestTimestamp hist = some oldest)
    (hs24 : ¬((now - oldest) / 3600 < 24))
    (hs72 : (now - oldest) / 3600 < 72)
    (_hmin : ∀ r ∈ getPeriodRatios now 24 hist, cur ≤ r)
    (hlt : ∃ r ∈ getPeriodRatios now 24 hist, cur < r) :
    loadLastAlerted (saveLastAlerted store0 ("24h_low") cur) ("24h_low") =
      some cur ∧
    check_extremes now cur hist
        (loadLastAlerted (saveLastAlerted store0 ("24h_low") cur))
        (saveLastAlerted store0 ("24h_low") cur) =
      ([], loadLastAlerted (saveLastAlerted store0 ("24h_low") cur),
        saveLastAlerted store0 ("24h_low") cur) := by
  have hla : loadLastAlerted (saveLastAlerted store0 ("24h_low") cur)
      ("24h_low") = some cur :=
    loadLastAlerted_save store0 ("24h_low") cur (by decide)
  refine ⟨hla, ?_⟩
  have hck := check_extremes_eq_some now cur oldest hist
    (loadLastAlerted (saveLastAlerted store0 ("24h_low") cur))
    (saveLastAlerted store0 ("24h_low") cur) hold
  rw [hck, findExtremes_eq]
  rw [stepPeriod_skip _ _ _ _ _ _ _
    (show (now - oldest) / 3600 < (("144h", (144 : ℚ)) : String × ℚ).2 from
      lt_trans hs72 (by norm_num))]
  rw [stepPeriod_skip _ _ _ _ _ _ ("72h", (72 : ℚ))
    (show (now - oldest) / 3600 < (("72h", (72 : ℚ)) : String × ℚ).2 from hs72)]
  obtain ⟨r₀, hr₀mem, hr₀⟩ := hlt
  have hne : getPeriodRatios now 24 hist ≠ [] := List.ne_nil_of_mem hr₀mem
  obtain ⟨m, hm⟩ := min?_exists_of_ne_nil _ hne
  obtain ⟨M, hM⟩ := max?_exists_of_ne_nil _ hne
  have hallM : ∀ b ∈ getPeriodRatios now 24 hist, b ≤ M :=
    (List.max?_le_iff (fun _ _ _ => max_le_iff) hM).mp (le_refl M)
  have hMc : ¬(M ≤ cur) := by
    intro hMle
    exact absurd (lt_of_lt_of_le hr₀ (le_trans (hallM r₀ hr₀mem) hMle))
      (lt_irrefl cur)
  unfold stepPeriod
  rw [if_neg hs24, hm, hM]
  have hkeyl : ("24h" : String) ++ "_low" = "24h_low" := rfl
  simp [updateLow, updateHigh, hkeyl, hla, hMc, assemble]

/-- C8: retention. If the existing history has non-decreasing timestamps,
none in the future of the call time, then after add_prices every retained
sample is at most 145 hours older than the call time, the most recent
sample is the newly appended one (timestamp = now), and timestamps remain
non-decreasing in insertion order. -/
theorem C8_retention (now nbtc neth nr : ℚ) (hist : List Sample)
    (hsorted : hist.Pairwise (fun a b => a.ts ≤ b.ts))
    (hle : ∀ s ∈ hist, s.ts ≤ now) :
    (∀ s ∈ add_prices now nbtc neth nr hist,
      now - 145 * 3600 ≤ s.ts ∧ s.ts ≤ now) ∧
    (add_prices now nbtc neth nr hist).getLast? =
      some ⟨now, nbtc, neth, nr⟩ ∧
    (add_prices now nbtc neth nr hist).Pairwise (fun a b => a.ts ≤ b.ts) := by
  have hcutnew : now - 145 * 3600 ≤ (⟨now, nbtc, neth, nr⟩ : Sample).ts := by
    simp only []
    linarith
  refine ⟨?_, ?_, ?_⟩
  · intro s hs
    have hmem := List.mem_filter.mp hs
    have hcut : now - 145 * 3600 ≤ s.ts := by simpa using hmem.2
    refine ⟨hcut, ?_⟩
    rcases List.mem_append.mp hmem.1 with h | h
    · exact hle s h
    · simp at h
      rw [h]
  · unfold add_prices
    rw [List.filter_append]
    have hnew : List.filter (fun s => (now - 145 * 3600 ≤ s.ts : Bool))
        [(⟨now, nbtc, neth, nr⟩ : Sample)] = [(⟨now, nbtc, neth, nr⟩ : Sample)] := by
      simp [List.filter, hcutnew]
    rw [hnew]
    exact List.getLast?_concat _
  · apply List.Pairwise.sublist (List.filter_sublist _)
    rw [List.pairwise_append]
    refine ⟨hsorted, by simp, ?_⟩
    intro a ha b hb
    simp at hb
    rw [hb]
    exact hle a ha

/-- C9: demotion under de-duplication. There is a state where the current
ratio qualifies as a new low for both the 144h and the 72h windows, the
144h low is suppressed only because it equals the registered 144h_low
value, the 72h_low entry differs, and check_extremes then emits the 72h
low alert in that same call; symmetrically for highs. -/
theorem C9_demotion :
    (∃ (now cur : ℚ) (hist : List Sample) (la : Reg) (store : Store)
        (oldest : ℚ),
      getOldestTimestamp hist = some oldest ∧
      ¬((now - oldest) / 3600 < 144) ∧
      (∀ r ∈ getPeriodRatios now 144 hist, cur ≤ r) ∧
      (∀ r ∈ getPeriodRatios now 72 hist, cur ≤ r) ∧
      getPeriodRatios now 144 hist ≠ [] ∧
      getPeriodRatios now 72 hist ≠ [] ∧
      la ("144h_low") = some cur ∧
      la ("72h_low") ≠ some cur ∧
      (check_extremes now cur hist la store).1 =
        [⟨"72h", 72, ExtKind.low, cur⟩]) ∧
    (∃ (now cur : ℚ) (hist : List Sample) (la : Reg) (store : Store)
        (oldest : ℚ),
      getOldestTimestamp hist = some oldest ∧
      ¬((now - oldest) / 3600 < 144) ∧
      (∀ r ∈ getPeriodRatios now 144 hist, r ≤ cur) ∧
      (∀ r ∈ getPeriodRatios now 72 hist, r ≤ cur) ∧
      getPeriodRatios now 144 hist ≠ [] ∧
      getPeriodRatios now 72 hist ≠ [] ∧
      la ("144h_high") = some cur ∧
      la ("72h_high") ≠ some cur ∧
      (check_extremes now cur hist la store).1 =
        [⟨"72h", 72, ExtKind.high, cur⟩]) := by
  constructor
  · refine ⟨720000, 3, histB, regLow144, [], 0, ?_, ?_, ?_, ?_, ?_, ?_,
      ?_, ?_, ?_⟩
    · decide
    · norm_num
    · norm_num [getPeriodRatios, histB]
    · norm_num [getPeriodRatios, histB]
    · norm_num [getPeriodRatios, histB]
    · norm_num [getPeriodRatios, histB]
    · decide
    · decide
    · norm_num [check_extremes, findExtremes, periodsList, stepPeriod,
        updateLow, updateHigh, getOldestTimestamp, getPeriodRatios, histB,
        regLow144, setReg, initReg, List.min?, List.max?, assemble]
      decide
  · refine ⟨720000, 10, histB, regHigh144, [], 0, ?_, ?_, ?_, ?_, ?_, ?_,
      ?_, ?_, ?_⟩
    · decide
    · norm_num
    · norm_num [getPeriodRatios, histB]
    · norm_num [getPeriodRatios, histB]
    · norm_num [getPeriodRatios, histB]
    · norm_num [getPeriodRatios, histB]
    · decide
    · decide
    · norm_num [check_extremes, findExtremes, periodsList, stepPeriod,
        updateLow, updateHigh, getOldestTimestamp, getPeriodRatios, histB,
        regHigh144, setReg, initReg, List.min?, List.max?, assemble]
      decide

/-- Witness for C1 on histA at time 522000 (span 145h), current ratio 3,
fresh registry: exactly the 144h low alert. -/
theorem C1_longest_period_witness :
    (check_extremes 522000 3 histA initReg []).1.filter isLowAlert =
      [⟨"144h", 144, ExtKind.low, 3⟩] :=
  C1_longest_period 522000 3 0 histA initReg []
    (by decide)
    (by norm_num)
    (by norm_num [getPeriodRatios, histA]; decide)
    (by norm_num [getPeriodRatios, histA]; decide)
    (by norm_num [getPeriodRatios, histA])
    (by norm_num [getPeriodRatios, histA])
    (by norm_num [getPeriodRatios, histA])
    (by norm_num [getPeriodRatios, histA])
    (by decide)
    (by decide)
    (by decide)

/-- Witness for C2 on histA: the emitted 144h low alert respects
de-duplication, carries the current ratio, and its registry entry and
store row are updated to the current ratio. -/
theorem C2_dedup_witness :
    initReg (alertKey ⟨"144h", 144, ExtKind.low, 3⟩) ≠ some 3 ∧
    (⟨"144h", 144, ExtKind.low, 3⟩ : Alert).value = 3 ∧
    (check_extremes 522000 3 histA initReg []).2.1
      (alertKey ⟨"144h", 144, ExtKind.low, 3⟩) = some 3 ∧
    lookupStore (check_extremes 522000 3 histA initReg []).2.2
      (alertKey ⟨"144h", 144, ExtKind.low, 3⟩) = some 3 := by
  apply C2_dedup
  have h : (check_extremes 522000 3 histA initReg []).1 =
      [⟨"144h", 144, ExtKind.low, 3⟩] := by
    norm_num [check_extremes, findExtremes, periodsList, stepPeriod,
      updateLow, updateHigh, getOldestTimestamp, getPeriodRatios, histA,
      initReg, List.min?, List.max?, assemble]
    decide
  rw [h]
  simp

/-- Witness for C6 on histC at time 108000 (span 30h), current ratio 3
previously persisted for 24h_low: the reloaded registry holds 3 and no
alert fires. -/
theorem C6_restart_durability_witness :
    loadLastAlerted (saveLastAlerted [] ("24h_low") 3) ("24h_low") =
      some 3 ∧
    check_extremes 108000 3 histC
        (loadLastAlerted (saveLastAlerted [] ("24h_low") 3))
        (saveLastAlerted [] ("24h_low") 3) =
      ([], loadLastAlerted (saveLastAlerted [] ("24h_low") 3),
        saveLastAlerted [] ("24h_low") 3) :=
  C6_restart_durability 108000 3 0 histC []
    (by decide)
    (by norm_num)
    (by norm_num)
    (by norm_num [getPeriodRatios, histC])
    (by norm_num [getPeriodRatios, histC])

/-- Witness for C8: adding a sample at time 600000 to histD evicts the
sample older than 145 hours and keeps the rest in order. -/
theorem C8_retention_witness :
    (∀ s ∈ add_prices 600000 5 6 7 histD,
      (600000 : ℚ) - 145 * 3600 ≤ s.ts ∧ s.ts ≤ 600000) ∧
    (add_prices 600000 5 6 7 histD).getLast? =
      some ⟨600000, 5, 6, 7⟩ ∧
    (add_prices 600000 5 6 7 histD).Pairwise (fun a b => a.ts ≤ b.ts) :=
  C8_retention 600000 5 6 7 histD (by decide) (by decide)
